import Mathlib

/-!
# alsa-player: container decoding and playback loop

A shallow embedding of the three player variants of the repository
(`alsaPlayerOOP.cpp`, `alsaPlayerProcedural.cpp`, `alsaPlayer.cpp`):

* the input file is a list of bytes (`none` when it cannot be opened);
* the header is read by copying the first 44 bytes of the file over the
  `WavHeader` struct; the embedding assumes the usual target of the program,
  a little-endian host on which the struct has no padding
  (`sizeof(WavHeader) = 44`);
* the ALSA device is an oracle that answers every library call with the
  integer the call returns, as a function of the calls made so far;
* exceptions are values of `Except`; a loop that may run forever takes fuel;
* `main` is entered with one command-line argument; the text written to
  `std::cout` and `std::cerr` and a failure to allocate the sample buffer are
  left out.
-/

namespace AlsaPlayer

/-! ## Bytes and little-endian fields -/

abbrev Byte := Fin 256

/-- Four raw characters, the `std::array<char, 4>` / `char[4]` tag fields. -/
structure Tag where
  c0 : Byte
  c1 : Byte
  c2 : Byte
  c3 : Byte
deriving DecidableEq, Repr

/-- The literal `"RIFF"`. -/
def RIFF : Tag := ⟨0x52, 0x49, 0x46, 0x46⟩

/-- The literal `"WAVE"`. -/
def WAVE : Tag := ⟨0x57, 0x41, 0x56, 0x45⟩

/-- WAV-Datei Header-Struktur (`struct WavHeader`), 44 bytes. -/
structure WavHeader where
  riff_tag : Tag
  riff_length : Nat
  wave_tag : Tag
  fmt_tag : Tag
  fmt_length : Nat
  audio_format : Nat
  num_channels : Nat
  sample_rate : Nat
  byte_rate : Nat
  block_align : Nat
  bits_per_sample : Nat
  data_tag : Tag
  data_length : Nat
deriving DecidableEq, Repr

/-- The value of `sizeof(WavHeader)`. -/
def sizeofWavHeader : Nat := 44

def byteAt (bs : List Byte) (i : Nat) : Byte := bs.getD i 0

/-- A `uint16_t` stored at byte offset `off`, little-endian. -/
def u16At (bs : List Byte) (off : Nat) : Nat :=
  (byteAt bs off).val + 256 * (byteAt bs (off + 1)).val

/-- A `uint32_t` stored at byte offset `off`, little-endian. -/
def u32At (bs : List Byte) (off : Nat) : Nat :=
  (byteAt bs off).val + 256 * (byteAt bs (off + 1)).val
    + 65536 * (byteAt bs (off + 2)).val + 16777216 * (byteAt bs (off + 3)).val

def tagAt (bs : List Byte) (off : Nat) : Tag :=
  ⟨byteAt bs off, byteAt bs (off + 1), byteAt bs (off + 2), byteAt bs (off + 3)⟩

/-- The struct as it reads after `file.read(reinterpret_cast<char *>(&header), 44)`
copied the 44 bytes `bs` over it. -/
def headerOfBytes (bs : List Byte) : WavHeader where
  riff_tag := tagAt bs 0
  riff_length := u32At bs 4
  wave_tag := tagAt bs 8
  fmt_tag := tagAt bs 12
  fmt_length := u32At bs 16
  audio_format := u16At bs 20
  num_channels := u16At bs 22
  sample_rate := u32At bs 24
  byte_rate := u32At bs 28
  block_align := u16At bs 32
  bits_per_sample := u16At bs 34
  data_tag := tagAt bs 36
  data_length := u32At bs 40

/-! ### Writing a header (used to build test containers) -/

def byteOfNat (v : Nat) : Byte := ⟨v % 256, Nat.mod_lt v (by decide)⟩

def le16 (v : Nat) : List Byte := [byteOfNat v, byteOfNat (v / 256)]

def le32 (v : Nat) : List Byte :=
  [byteOfNat v, byteOfNat (v / 256), byteOfNat (v / 65536), byteOfNat (v / 16777216)]

def Tag.bytes (t : Tag) : List Byte := [t.c0, t.c1, t.c2, t.c3]

/-- The 44 bytes of a header holding the given field values, little-endian. -/
def encodeHeader (h : WavHeader) : List Byte :=
  h.riff_tag.bytes ++ le32 h.riff_length ++ h.wave_tag.bytes ++ h.fmt_tag.bytes
    ++ le32 h.fmt_length ++ le16 h.audio_format ++ le16 h.num_channels
    ++ le32 h.sample_rate ++ le32 h.byte_rate ++ le16 h.block_align
    ++ le16 h.bits_per_sample ++ h.data_tag.bytes ++ le32 h.data_length

/-- Every integer field fits the width of its C type. -/
def WavHeader.InRange (h : WavHeader) : Prop :=
  h.riff_length < 4294967296 ∧ h.fmt_length < 4294967296 ∧ h.audio_format < 65536
    ∧ h.num_channels < 65536 ∧ h.sample_rate < 4294967296 ∧ h.byte_rate < 4294967296
    ∧ h.block_align < 65536 ∧ h.bits_per_sample < 65536 ∧ h.data_length < 4294967296

instance (h : WavHeader) : Decidable h.InRange := by
  unfold WavHeader.InRange; infer_instance

/-! ## Errors -/

/-- The `std::runtime_error`s thrown by the programs, one constructor per message. -/
inductive PlayerError where
  /-- "Error: Unable to open file ..." -/
  | unableToOpenFile
  /-- "Error: Unable to read WAV header from ..." -/
  | unableToReadHeader
  /-- "Error: Invalid WAV file format." -/
  | invalidWavFormat
  /-- "Error: Invalid data length in WAV file." -/
  | invalidDataLength
  /-- "Error: Unable to read WAV data from ..." -/
  | unableToReadData
  /-- "Failed to open ALSA PCM device." -/
  | openFailed
  /-- "Failed to initialize ALSA hardware parameters." -/
  | paramsInitFailed
  /-- "Failed to set ALSA access type." -/
  | setAccessFailed
  /-- "Unsupported bit depth: n" -/
  | unsupportedBitDepth (bits : Nat)
  /-- "Failed to set ALSA format." -/
  | setFormatFailed
  /-- "Failed to set ALSA channels." -/
  | setChannelsFailed
  /-- "Failed to set ALSA sample rate." -/
  | setRateFailed
  /-- "Failed to apply ALSA hardware parameters." -/
  | applyParamsFailed
  /-- "Error writing to ALSA device: " followed by `snd_strerror(code)` -/
  | writeError (code : Int)
  /-- "Unexpected number of frames written." -/
  | unexpectedFrames
  /-- "Invalid frame size or corrupted data." -/
  | invalidFrameSize
deriving DecidableEq, Repr

/-- The failure kinds of the decoder in the specification's taxonomy. -/
inductive DecodeError where
  | Truncated
  | BadMagic
  | InvalidLength
  | MalformedFrames
deriving DecidableEq, Repr

/-- Which decode failure a thrown error stands for: a failed read of the header
or of the payload is `Truncated`, a wrong tag is `BadMagic`, a refused data
length is `InvalidLength`.  Errors that do not come from decoding have no kind. -/
def PlayerError.decodeKind : PlayerError → Option DecodeError
  | .unableToReadHeader => some .Truncated
  | .unableToReadData => some .Truncated
  | .invalidWavFormat => some .BadMagic
  | .invalidDataLength => some .InvalidLength
  | _ => none

deriving instance DecidableEq for Except

/-! ## `alsaPlayerOOP.cpp`: class `WavFile` -/

/-- The private members of `WavFile`. -/
structure WavFile where
  header : WavHeader
  data : List Byte
deriving DecidableEq, Repr

def WavFile.getHeader (w : WavFile) : WavHeader := w.header

def WavFile.getData (w : WavFile) : List Byte := w.data

/-- `WavFile::validateHeader`. -/
def validateHeader (header : WavHeader) : Except PlayerError Unit :=
  if header.riff_tag ≠ RIFF ∨ header.wave_tag ≠ WAVE then
    .error .invalidWavFormat
  else if header.data_length = 0 ∨ header.data_length > 0xFFFFFF then
    .error .invalidDataLength
  else
    .ok ()

/-- `WavFile::readHeader`, which is all the constructor `WavFile(filename)` runs.
`file` is the content of the named file, `none` when it cannot be opened. -/
def readHeader (file : Option (List Byte)) : Except PlayerError WavFile :=
  match file with
  | none => .error .unableToOpenFile
  | some bytes =>
    if bytes.length < sizeofWavHeader then
      .error .unableToReadHeader
    else
      let header := headerOfBytes (bytes.take sizeofWavHeader)
      match validateHeader header with
      | .error e => .error e
      | .ok () =>
        let rest := bytes.drop sizeofWavHeader
        if rest.length < header.data_length then
          .error .unableToReadData
        else
          .ok { header := header, data := rest.take header.data_length }

/-! ## The ALSA device -/

/-- The PCM device names the programs open. -/
inductive DeviceName where
  /-- "default" -/
  | defaultDevice
  /-- "pulse" -/
  | pulse
deriving DecidableEq, Repr

/-- The values of `snd_pcm_format_t` the programs use. -/
inductive snd_pcm_format_t where
  | SND_PCM_FORMAT_S16_LE
  | SND_PCM_FORMAT_S24_3LE
  | SND_PCM_FORMAT_U8
deriving DecidableEq, Repr

/-- A call into the ALSA library together with the arguments that vary.
`snd_pcm_writei` carries the byte offset of its buffer argument inside the
sample data (`data.data() + offset`) and the frame count requested. -/
inductive Call where
  | snd_pcm_open (name : DeviceName)
  | snd_pcm_hw_params_any
  | snd_pcm_hw_params_set_access
  | snd_pcm_hw_params_set_format (format : snd_pcm_format_t)
  | snd_pcm_hw_params_set_channels (channels : Nat)
  | snd_pcm_hw_params_set_rate (rate : Nat)
  | snd_pcm_hw_params
  | snd_pcm_prepare
  | snd_pcm_writei (offset : Nat) (frames : Nat)
  | snd_pcm_recover (err : Int)
  | snd_pcm_drain
  | snd_pcm_close
deriving DecidableEq, Repr

/-- A call and the integer it returned. -/
abbrev Event := Call × Int

/-- A device behaviour: the integer returned by a call, given every earlier call
of the run with its result. -/
abbrev Device := List Event → Call → Int

/-- The event of making call `c` after the events `hist`. -/
def Device.ask (dev : Device) (hist : List Event) (c : Call) : Event := (c, dev hist c)

/-- Conversion of a `snd_pcm_sframes_t` (long) to the `int` parameter of
`snd_pcm_recover`. -/
def narrowToInt (x : Int) : Int := (x + 2147483648) % 4294967296 - 2147483648

/-- How a call of `play` ends: it returns, it throws, or the loop is still running
when the fuel is used up. -/
inductive PlayResult where
  | returned
  | threw (e : PlayerError)
  | outOfFuel
deriving DecidableEq, Repr

/-! ## `alsaPlayerOOP.cpp`: class `AudioPlayer` -/

/-- The members of `AudioPlayer`; `pcmHandle` records whether the pointer is
non-null. -/
structure AudioPlayer where
  header : WavHeader
  data : List Byte
  pcmHandle : Bool
deriving DecidableEq, Repr

/-- `AudioPlayer::selectFormat`. -/
def selectFormat (header : WavHeader) : Except PlayerError snd_pcm_format_t :=
  if header.bits_per_sample = 16 then .ok .SND_PCM_FORMAT_S16_LE
  else if header.bits_per_sample = 24 then .ok .SND_PCM_FORMAT_S24_3LE
  else .error (.unsupportedBitDepth header.bits_per_sample)

/-- `AudioPlayer::calculateFrameSize`.  The fields are 16-bit, so the product is
below 2^29 and the `int` arithmetic of the source does not overflow. -/
def calculateFrameSize (header : WavHeader) : Nat :=
  header.num_channels * (header.bits_per_sample / 8)

/-- `AudioPlayer::validateFrameSize`. -/
def validateFrameSize (data : List Byte) (frameSize : Nat) : Except PlayerError Unit :=
  if frameSize = 0 ∨ data.length % frameSize ≠ 0 then .error .invalidFrameSize
  else .ok ()

/-- `AudioPlayer::configureDevice`, run after the events `hist`; returns how it
ends and the events it adds. -/
def configureDevice (dev : Device) (header : WavHeader) (hist : List Event) :
    Except PlayerError Unit × List Event :=
  let e1 := dev.ask hist .snd_pcm_hw_params_any
  if e1.2 < 0 then (.error .paramsInitFailed, [e1]) else
  let e2 := dev.ask (hist ++ [e1]) .snd_pcm_hw_params_set_access
  if e2.2 < 0 then (.error .setAccessFailed, [e1, e2]) else
  match selectFormat header with
  | .error e => (.error e, [e1, e2])
  | .ok format =>
  let e3 := dev.ask (hist ++ [e1, e2]) (.snd_pcm_hw_params_set_format format)
  if e3.2 < 0 then (.error .setFormatFailed, [e1, e2, e3]) else
  let e4 := dev.ask (hist ++ [e1, e2, e3]) (.snd_pcm_hw_params_set_channels header.num_channels)
  if e4.2 < 0 then (.error .setChannelsFailed, [e1, e2, e3, e4]) else
  let e5 := dev.ask (hist ++ [e1, e2, e3, e4]) (.snd_pcm_hw_params_set_rate header.sample_rate)
  if e5.2 < 0 then (.error .setRateFailed, [e1, e2, e3, e4, e5]) else
  let e6 := dev.ask (hist ++ [e1, e2, e3, e4, e5]) .snd_pcm_hw_params
  if e6.2 < 0 then (.error .applyParamsFailed, [e1, e2, e3, e4, e5, e6]) else
  let e7 := dev.ask (hist ++ [e1, e2, e3, e4, e5, e6]) .snd_pcm_prepare
  (.ok (), [e1, e2, e3, e4, e5, e6, e7])

/-- The constructor `AudioPlayer(wavFile)`: `openDevice` then `configureDevice`.
An error is an exception leaving the constructor. -/
def AudioPlayer.new (dev : Device) (wavFile : WavFile) (hist : List Event) :
    Except PlayerError AudioPlayer × List Event :=
  let e0 := dev.ask hist (.snd_pcm_open .defaultDevice)
  if e0.2 < 0 then (.error .openFailed, [e0]) else
  let player : AudioPlayer :=
    { header := wavFile.getHeader, data := wavFile.getData, pcmHandle := true }
  match configureDevice dev player.header (hist ++ [e0]) with
  | (.error e, evs) => (.error e, e0 :: evs)
  | (.ok (), evs) => (.ok player, e0 :: evs)

/-- One `snd_pcm_writei` with the `snd_pcm_recover` that follows a negative
result (the same three statements in all three programs): the final value of
`framesWritten` and the events added. -/
def writeChunk (dev : Device) (hist : List Event) (offset framesToWrite : Nat) :
    Int × List Event :=
  let w := dev.ask hist (.snd_pcm_writei offset framesToWrite)
  if w.2 < 0 then
    let r := dev.ask (hist ++ [w]) (.snd_pcm_recover (narrowToInt w.2))
    (r.2, [w, r])
  else
    (w.2, [w])

/-- The `for` loop of `AudioPlayer::play` from cursor `i` on, followed by the
`snd_pcm_drain` after it.  One unit of fuel is one iteration. -/
def playLoop (dev : Device) (frameSize totalFrames : Nat) :
    Nat → Nat → List Event → PlayResult × List Event
  | fuel, i, hist =>
    if i < totalFrames then
      match fuel with
      | 0 => (.outOfFuel, [])
      | fuel + 1 =>
        let framesToWrite := min (totalFrames - i) 1024
        let c := writeChunk dev hist (i * frameSize) framesToWrite
        let framesWritten := c.1
        if framesWritten < 0 then (.threw (.writeError framesWritten), c.2)
        else if framesWritten.toNat > framesToWrite then (.threw .unexpectedFrames, c.2)
        else
          let rest := playLoop dev frameSize totalFrames fuel (i + framesWritten.toNat)
            (hist ++ c.2)
          (rest.1, c.2 ++ rest.2)
    else
      (.returned, [dev.ask hist .snd_pcm_drain])

/-- `AudioPlayer::play`. -/
def AudioPlayer.play (dev : Device) (p : AudioPlayer) (fuel : Nat) (hist : List Event) :
    PlayResult × List Event :=
  let frameSize := calculateFrameSize p.header
  match validateFrameSize p.data frameSize with
  | .error e => (.threw e, [])
  | .ok () =>
    let totalFrames := p.data.length / frameSize
    playLoop dev frameSize totalFrames fuel 0 hist

/-- `AudioPlayer::closeDevice`, the body of the destructor. -/
def AudioPlayer.closeDevice (dev : Device) (p : AudioPlayer) (hist : List Event) : List Event :=
  if p.pcmHandle then [dev.ask hist .snd_pcm_close] else []

/-- How a run of `main` ends. -/
inductive Exit where
  /-- `main` returned this status -/
  | status (code : Nat)
  /-- the process was killed by a division by zero -/
  | crashed
  /-- the write loop is still running when the fuel is used up -/
  | running
deriving DecidableEq, Repr

/-- `main` of `alsaPlayerOOP.cpp`, called with one argument naming a file of
content `file`: the exit status and the device calls made, in order.  An
exception leaving the constructor of `player` does not run its destructor; one
leaving `play` does, before the handler. -/
def mainOOP (file : Option (List Byte)) (dev : Device) (fuel : Nat) : Exit × List Event :=
  match readHeader file with
  | .error _ => (.status 1, [])
  | .ok wavFile =>
    match AudioPlayer.new dev wavFile [] with
    | (.error _, evs) => (.status 1, evs)
    | (.ok player, evs) =>
      match player.play dev fuel evs with
      | (.outOfFuel, evs2) => (.running, evs ++ evs2)
      | (.threw _, evs2) =>
        (.status 1, evs ++ evs2 ++ player.closeDevice dev (evs ++ evs2))
      | (.returned, evs2) =>
        (.status 0, evs ++ evs2 ++ player.closeDevice dev (evs ++ evs2))

/-! ## `alsaPlayerProcedural.cpp` -/

namespace Procedural

/-- The `for` loop of `play_audio` from cursor `i` on, followed by the
`snd_pcm_drain` after it. -/
def playLoop (dev : Device) (frame_size total_frames : Nat) :
    Nat → Nat → List Event → PlayResult × List Event
  | fuel, i, hist =>
    if i < total_frames then
      match fuel with
      | 0 => (.outOfFuel, [])
      | fuel + 1 =>
        let c := writeChunk dev hist (i * frame_size) (total_frames - i)
        let frames_written := c.1
        if frames_written < 0 then (.threw (.writeError frames_written), c.2)
        else
          let rest := playLoop dev frame_size total_frames fuel (i + frames_written.toNat)
            (hist ++ c.2)
          (rest.1, c.2 ++ rest.2)
    else
      (.returned, [dev.ask hist .snd_pcm_drain])

end Procedural

/-! ## `alsaPlayer.cpp` -/

namespace Simple

/-- The `for` loop of `main` from cursor `i` on; a failed write leaves the loop by
`break`.  The result says whether the loop was left (`false`: the fuel ran out
first) and gives the events added. -/
def playLoop (dev : Device) (frame_size frames : Nat) :
    Nat → Nat → List Event → Bool × List Event
  | fuel, i, hist =>
    if i < frames then
      match fuel with
      | 0 => (false, [])
      | fuel + 1 =>
        let c := writeChunk dev hist (i * frame_size) (frames - i)
        let frames_written := c.1
        if frames_written < 0 then (true, c.2)
        else
          let rest := playLoop dev frame_size frames fuel (i + frames_written.toNat)
            (hist ++ c.2)
          (rest.1, c.2 ++ rest.2)
    else
      (true, [])

end Simple

/-! ## Reference definitions used in the statements -/

/-- The bytes `"fmt "`. -/
def fmtTag : Tag := ⟨0x66, 0x6D, 0x74, 0x20⟩

/-- The bytes `"data"`. -/
def dataTag : Tag := ⟨0x64, 0x61, 0x74, 0x61⟩

/-- A conventional PCM header at 44100 Hz with the given channel count, bit depth
and declared data length. -/
def pcmHeader (channels bits dataLength : Nat) : WavHeader where
  riff_tag := RIFF
  riff_length := 36 + dataLength
  wave_tag := WAVE
  fmt_tag := fmtTag
  fmt_length := 16
  audio_format := 1
  num_channels := channels
  sample_rate := 44100
  byte_rate := 44100 * (channels * (bits / 8))
  block_align := channels * (bits / 8)
  bits_per_sample := bits
  data_tag := dataTag
  data_length := dataLength

/-- The decoder seen through the specification's failure kinds: the content of an
opened file goes to a `WavFile` or to the kind of the error thrown. -/
def decode (bytes : List Byte) : Except (Option DecodeError) WavFile :=
  match readHeader (some bytes) with
  | .ok w => .ok w
  | .error e => .error e.decodeKind

/-- The documented order of the decoder's checks, written from the
specification over the raw bytes of the stream, with the ceiling the code
compares against: the first check that fails, `none` when all pass. -/
def firstFailingCheck (bytes : List Byte) : Option DecodeError :=
  if bytes.length < 44 then some .Truncated
  else if tagAt bytes 0 ≠ RIFF ∨ tagAt bytes 8 ≠ WAVE then some .BadMagic
  else if u32At bytes 40 = 0 ∨ u32At bytes 40 > 16777215 then some .InvalidLength
  else if bytes.length - 44 < u32At bytes 40 then some .Truncated
  else none

/-- Position `k` of the trace of a run of the write loop is where an iteration
of the loop begins: from there on the trace and the result are those of the
loop entered at some cursor `i < totalFrames` with fuel left. -/
def IterStart (dev : Device) (fs T : Nat) (run : PlayResult × List Event) (k : Nat) : Prop :=
  ∃ fuel i hist, i < T ∧ run.2.drop k = (playLoop dev fs T (fuel + 1) i hist).2
    ∧ run.1 = (playLoop dev fs T (fuel + 1) i hist).1

/-- What the event `e` at position `k` of the trace of the write loop can be: the
write that begins an iteration, the recover call right after a write that
returned a negative value, or the final drain. -/
def EventClass (dev : Device) (fs T : Nat) (run : PlayResult × List Event) (k : Nat)
    (e : Event) : Prop :=
  IterStart dev fs T run k
    ∨ (∃ off n res rr, e = (.snd_pcm_recover (narrowToInt res), rr) ∧ 1 ≤ k
        ∧ run.2[k - 1]? = some (.snd_pcm_writei off n, res) ∧ res < 0)
    ∨ (e.1 = .snd_pcm_drain ∧ run.2.length = k + 1 ∧ run.1 = .returned)

/-- A device on which every call succeeds and every write takes all the frames it
is offered. -/
def acceptAll : Device := fun _ c =>
  match c with
  | .snd_pcm_writei _ frames => frames
  | _ => 0

/-- A device whose first call in a run, if it is a write, reports an underrun
(`-EPIPE`), and which behaves as `acceptAll` otherwise. -/
def underrunFirst : Device := fun hist c =>
  match c with
  | .snd_pcm_writei _ frames => if hist.length = 0 then -32 else frames
  | _ => 0

/-- A device that reports one frame more than it was offered on every write. -/
def overAccept : Device := fun _ c =>
  match c with
  | .snd_pcm_writei _ frames => frames + 1
  | _ => 0

/-- A device that takes a single frame of every write. -/
def oneFramePerWrite : Device := fun _ c =>
  match c with
  | .snd_pcm_writei _ _ => 1
  | _ => 0

/-- The payload of the specification's scenario: 8 bytes, two frames of two
16-bit channels. -/
def demoPayload : List Byte := [1, 2, 3, 4, 5, 6, 7, 8]

/-- An `AudioPlayer` over the specification's scenario, device opened. -/
def demoPlayer : AudioPlayer :=
  { header := pcmHeader 2 16 8, data := demoPayload, pcmHandle := true }

/-- The write requests of a trace, in order: byte offset of the buffer argument
and frame count. -/
def writeCalls : List Event → List (Nat × Nat)
  | [] => []
  | (.snd_pcm_writei offset frames, _) :: rest => (offset, frames) :: writeCalls rest
  | _ :: rest => writeCalls rest

/-- The sum of the accepted-frame counts over the write calls of a trace (a write
that returned an error signal accepted none). -/
def acceptedFrames : List Event → Nat
  | [] => 0
  | (.snd_pcm_writei _ _, res) :: rest => res.toNat + acceptedFrames rest
  | _ :: rest => acceptedFrames rest

/-- The calls of a complete playback of `T` frames of `fs` bytes in chunks of at
most 1024 frames, every chunk written by one call: chunk `k` starts at frame
`1024 * k`; then the drain. -/
def chunkedCalls (fs T : Nat) : List Call :=
  (List.range ((T + 1023) / 1024)).map
      (fun k => Call.snd_pcm_writei (1024 * k * fs) (min (T - 1024 * k) 1024))
    ++ [.snd_pcm_drain]

/-- The number of `snd_pcm_close` calls in a trace. -/
def closeCalls (evs : List Event) : Nat :=
  evs.countP (fun e => e.1 == Call.snd_pcm_close)

/-- A device on which `snd_pcm_open` fails (`-ENOENT`). -/
def openFails : Device := fun _ c =>
  match c with
  | .snd_pcm_open _ => -2
  | .snd_pcm_writei _ frames => frames
  | _ => 0

/-- A file of 8 bits per sample, otherwise the specification's scenario. -/
def eightBitFile : List Byte := encodeHeader (pcmHeader 2 8 8) ++ demoPayload

/-- A file that is just a header declaring a data length of 0. -/
def emptyDataFile : List Byte := encodeHeader (pcmHeader 2 16 0)

theorem encodeHeader_length (h : WavHeader) : (encodeHeader h).length = 44 := by
  simp [encodeHeader, le16, le32, Tag.bytes]

theorem headerOfBytes_encodeHeader (h : WavHeader) (hr : h.InRange) :
    headerOfBytes (encodeHeader h) = h := by
  obtain ⟨h1, h2, h3, h4, h5, h6, h7, h8, h9⟩ := hr
  cases h
  simp only [encodeHeader, le16, le32, Tag.bytes, headerOfBytes, tagAt, u16At, u32At, byteAt,
    byteOfNat, List.cons_append, List.nil_append, List.getD_cons_zero, List.getD_cons_succ,
    WavHeader.mk.injEq] at *
  refine ⟨trivial, ?_, trivial, trivial, ?_, ?_, ?_, ?_, ?_, ?_, ?_, trivial, ?_⟩ <;> omega

theorem byteAt_take (bs : List Byte) (n i : Nat) (h : i < n) :
    byteAt (bs.take n) i = byteAt bs i := by
  simp [byteAt, List.getD_eq_getElem?_getD, List.getElem?_take, h]

theorem headerOfBytes_take (bs : List Byte) :
    headerOfBytes (bs.take 44) = headerOfBytes bs := by
  simp [headerOfBytes, tagAt, u16At, u32At, byteAt_take]

theorem readHeader_short (bytes : List Byte) (h1 : bytes.length < 44) :
    readHeader (some bytes) = .error .unableToReadHeader := by
  simp [readHeader, sizeofWavHeader, h1]

theorem readHeader_invalid (bytes : List Byte) (e : PlayerError) (h1 : 44 ≤ bytes.length)
    (hv : validateHeader (headerOfBytes bytes) = .error e) :
    readHeader (some bytes) = .error e := by
  have h1' : ¬ bytes.length < 44 := by omega
  simp only [readHeader, sizeofWavHeader, h1', if_false, headerOfBytes_take, hv]

theorem readHeader_valid (bytes : List Byte) (h1 : 44 ≤ bytes.length)
    (hv : validateHeader (headerOfBytes bytes) = .ok ()) :
    readHeader (some bytes) =
      if bytes.length - 44 < (headerOfBytes bytes).data_length then .error .unableToReadData
      else .ok ⟨headerOfBytes bytes, (bytes.drop 44).take (headerOfBytes bytes).data_length⟩ := by
  have h1' : ¬ bytes.length < 44 := by omega
  simp only [readHeader, sizeofWavHeader, h1', if_false, headerOfBytes_take, hv, List.length_drop]

theorem headerOfBytes_encodeHeader_append (h : WavHeader) (hr : h.InRange) (payload : List Byte) :
    headerOfBytes (encodeHeader h ++ payload) = h := by
  rw [← headerOfBytes_take, List.take_append_eq_append_take, encodeHeader_length,
    List.take_of_length_le (by rw [encodeHeader_length]), Nat.sub_self, List.take_zero,
    List.append_nil, headerOfBytes_encodeHeader h hr]

theorem drop_encodeHeader_append (h : WavHeader) (payload : List Byte) :
    (encodeHeader h ++ payload).drop 44 = payload := by
  rw [List.drop_append_eq_append_drop, encodeHeader_length,
    List.drop_of_length_le (by rw [encodeHeader_length]), Nat.sub_self, List.drop_zero,
    List.nil_append]

theorem validateHeader_eq (h : WavHeader) (hriff : h.riff_tag = RIFF) (hwave : h.wave_tag = WAVE) :
    validateHeader h =
      if h.data_length = 0 ∨ h.data_length > 16777215 then .error .invalidDataLength
      else .ok () := by
  unfold validateHeader
  rw [if_neg (by simp [hriff, hwave])]

theorem byteOfNat_val (b : Byte) : byteOfNat b.val = b := by
  apply Fin.ext
  simp only [byteOfNat]
  omega

theorem le16_u16 (a b : Byte) : le16 (a.val + 256 * b.val) = [a, b] := by
  have ha := a.isLt
  have hb := b.isLt
  simp only [le16, byteOfNat, List.cons.injEq, and_true]
  constructor <;> apply Fin.ext <;> simp only [] <;> omega

theorem le32_u32 (a b c d : Byte) :
    le32 (a.val + 256 * b.val + 65536 * c.val + 16777216 * d.val) = [a, b, c, d] := by
  have ha := a.isLt
  have hb := b.isLt
  have hc := c.isLt
  have hd := d.isLt
  simp only [le32, byteOfNat, List.cons.injEq, and_true]
  refine ⟨?_, ?_, ?_, ?_⟩ <;> apply Fin.ext <;> simp only [] <;> omega

/-- Every 44-byte header is the little-endian encoding of the struct read from it. -/
theorem encodeHeader_headerOfBytes (hdr : List Byte) (hlen : hdr.length = 44) :
    encodeHeader (headerOfBytes hdr) = hdr := by
  match hdr, hlen with
  | b0 :: b1 :: b2 :: b3 :: b4 :: b5 :: b6 :: b7 :: b8 :: b9 :: b10 :: b11 :: b12 :: b13 :: b14 :: b15 :: b16 :: b17 :: b18 :: b19 :: b20 :: b21 :: b22 :: b23 :: b24 :: b25 :: b26 :: b27 :: b28 :: b29 :: b30 :: b31 :: b32 :: b33 :: b34 :: b35 :: b36 :: b37 :: b38 :: b39 :: b40 :: b41 :: b42 :: b43 :: [], _ =>
    simp only [encodeHeader, headerOfBytes, tagAt, u16At, u32At, byteAt, Tag.bytes,
      List.getD_cons_zero, List.getD_cons_succ, le16_u16, le32_u32, List.cons_append,
      List.nil_append]

theorem headerOfBytes_append (hdr payload : List Byte) (hlen : hdr.length = 44) :
    headerOfBytes (hdr ++ payload) = headerOfBytes hdr := by
  rw [← headerOfBytes_take (hdr ++ payload), List.take_append_eq_append_take, hlen,
    List.take_of_length_le (by rw [hlen]), Nat.sub_self, List.take_zero, List.append_nil]

theorem drop_header_append (hdr payload : List Byte) (hlen : hdr.length = 44) :
    (hdr ++ payload).drop 44 = payload := by
  rw [List.drop_append_eq_append_drop, hlen, List.drop_of_length_le (by rw [hlen]),
    Nat.sub_self, List.drop_zero, List.nil_append]

/-- A container built by `encodeHeader` from in-range field values decodes to
those values and to its payload. -/
theorem readHeader_encodeHeader (h : WavHeader) (payload : List Byte)
    (hr : h.InRange) (hriff : h.riff_tag = RIFF) (hwave : h.wave_tag = WAVE)
    (hlen : h.data_length = payload.length) (hpos : 0 < payload.length)
    (hceil : payload.length ≤ 16777215) :
    readHeader (some (encodeHeader h ++ payload)) = .ok ⟨h, payload⟩ := by
  have hlenE := encodeHeader_length h
  have hH := headerOfBytes_encodeHeader_append h hr payload
  have hv : validateHeader h = .ok () := by
    rw [validateHeader_eq h hriff hwave, if_neg (by omega)]
  rw [readHeader_valid _ (by rw [List.length_append, hlenE]; omega) (by rw [hH]; exact hv), hH,
    drop_encodeHeader_append, List.length_append, hlenE, if_neg (by omega), hlen, List.take_length]

/-! ## C1: round trip of the decoder -/

/-- C1, as stated, fails for N = 0: a 44-byte header with the tags "RIFF" and
"WAVE", two channels, 16 bits per sample and a data length of 0, followed by zero
frames, meets every condition of the claim, and `readHeader` throws "Invalid
data length" instead of producing a `WavFile`. -/
theorem C1_counterexample_zero_frames :
    emptyDataFile.length = 44 ∧ tagAt emptyDataFile 0 = RIFF ∧ tagAt emptyDataFile 8 = WAVE
      ∧ 0 < u16At emptyDataFile 22 ∧ u16At emptyDataFile 34 = 16
      ∧ u32At emptyDataFile 40 = ([] : List Byte).length
      ∧ ([] : List Byte).length = 0 * (u16At emptyDataFile 22 * (u16At emptyDataFile 34 / 8))
      ∧ ([] : List Byte).length ≤ 16777216
      ∧ readHeader (some (emptyDataFile ++ [])) = .error .invalidDataLength := by
  decide

/-- C1 (amended): for every byte stream made of a 44-byte header with tags "RIFF" and
"WAVE", channel count > 0, bits per sample 16 or 24 and a data-length field
equal to the payload length, followed by N ≥ 1 whole frames of arbitrary bytes
making at most 16,777,215 bytes, `readHeader` succeeds, `getData()` is the
payload byte for byte, the channel count, sample rate, bits-per-sample and
data-length fields of `getHeader()` are the little-endian values at offsets
22, 24, 34 and 40 of the header, and writing `getHeader()` back little-endian
gives the 44 header bytes again. -/
theorem C1_roundtrip (hdr payload : List Byte) (N : Nat)
    (hlen : hdr.length = 44) (hriff : tagAt hdr 0 = RIFF) (hwave : tagAt hdr 8 = WAVE)
    (hch : 0 < u16At hdr 22) (hbits : u16At hdr 34 = 16 ∨ u16At hdr 34 = 24)
    (hdl : u32At hdr 40 = payload.length)
    (hframes : payload.length = N * (u16At hdr 22 * (u16At hdr 34 / 8)))
    (hN : 1 ≤ N) (hceil : payload.length ≤ 16777215) :
    ∃ w, readHeader (some (hdr ++ payload)) = .ok w
      ∧ w.getData = payload
      ∧ w.getHeader.num_channels = u16At hdr 22
      ∧ w.getHeader.sample_rate = u32At hdr 24
      ∧ w.getHeader.bits_per_sample = u16At hdr 34
      ∧ w.getHeader.data_length = u32At hdr 40
      ∧ encodeHeader w.getHeader = hdr := by
  have hfs : 0 < u16At hdr 22 * (u16At hdr 34 / 8) := by
    rcases hbits with hb | hb <;> rw [hb] <;> omega
  have hpos : 0 < payload.length := by
    rw [hframes]; exact Nat.mul_pos hN hfs
  have hH := headerOfBytes_append hdr payload hlen
  have hdl' : (headerOfBytes hdr).data_length = payload.length := hdl
  have hv : validateHeader (headerOfBytes hdr) = .ok () := by
    rw [validateHeader_eq _ hriff hwave, if_neg (by omega)]
  refine ⟨⟨headerOfBytes hdr, payload⟩, ?_, rfl, rfl, rfl, rfl, rfl,
    encodeHeader_headerOfBytes hdr hlen⟩
  rw [readHeader_valid _ (by rw [List.length_append, hlen]; omega) (by rw [hH]; exact hv), hH,
    drop_header_append hdr payload hlen, List.length_append, hlen, if_neg (by omega), hdl',
    List.take_length]

/-- Witness of `C1_roundtrip`: the scenario of the specification, two channels,
16 bits, 8 bytes of payload (two frames). -/
theorem C1_roundtrip_witness :
    ∃ w, readHeader (some (encodeHeader (pcmHeader 2 16 8) ++ demoPayload)) = .ok w
      ∧ w.getData = demoPayload
      ∧ w.getHeader.num_channels = u16At (encodeHeader (pcmHeader 2 16 8)) 22
      ∧ w.getHeader.sample_rate = u32At (encodeHeader (pcmHeader 2 16 8)) 24
      ∧ w.getHeader.bits_per_sample = u16At (encodeHeader (pcmHeader 2 16 8)) 34
      ∧ w.getHeader.data_length = u32At (encodeHeader (pcmHeader 2 16 8)) 40
      ∧ encodeHeader w.getHeader = encodeHeader (pcmHeader 2 16 8) :=
  C1_roundtrip (encodeHeader (pcmHeader 2 16 8)) demoPayload 2 (by decide) (by decide)
    (by decide) (by decide) (Or.inl (by decide)) (by decide) (by decide) (by decide)
    (by decide)

/-! ## C2: order of the decode failures -/

/-- C2: for every content of an opened file, the decoder fails exactly with the
first failing check of the documented order (header shorter than 44 bytes:
Truncated; else wrong "RIFF"/"WAVE" tag: BadMagic; else data length 0 or above
the ceiling of the code, 0xFFFFFF: InvalidLength; else fewer than data_length
bytes after the header: Truncated), and a failure carries no `WavFile`; when no
check fails it produces the header and the data_length bytes after it. -/
theorem C2_decode_failure_order (bytes : List Byte) :
    decode bytes =
      match firstFailingCheck bytes with
      | some kind => .error (some kind)
      | none => .ok ⟨headerOfBytes bytes, (bytes.drop 44).take (u32At bytes 40)⟩ := by
  unfold decode firstFailingCheck
  by_cases h1 : bytes.length < 44
  · rw [readHeader_short bytes h1, if_pos h1]; rfl
  · have h1' : 44 ≤ bytes.length := by omega
    rw [if_neg h1]
    by_cases h2 : tagAt bytes 0 ≠ RIFF ∨ tagAt bytes 8 ≠ WAVE
    · have hv : validateHeader (headerOfBytes bytes) = .error .invalidWavFormat := by
        unfold validateHeader; exact if_pos h2
      rw [readHeader_invalid bytes _ h1' hv, if_pos h2]; rfl
    · rw [if_neg h2]
      have h2' : tagAt bytes 0 = RIFF ∧ tagAt bytes 8 = WAVE := by simpa using h2
      have hv := validateHeader_eq (headerOfBytes bytes) h2'.1 h2'.2
      by_cases h3 : u32At bytes 40 = 0 ∨ u32At bytes 40 > 16777215
      · rw [if_pos (by exact h3)] at hv
        rw [readHeader_invalid bytes _ h1' hv, if_pos h3]; rfl
      · rw [if_neg (by exact h3)] at hv
        rw [readHeader_valid bytes h1' hv, if_neg h3]
        by_cases h4 : bytes.length - 44 < u32At bytes 40
        · rw [if_pos (by exact h4), if_pos h4]; rfl
        · rw [if_neg (by exact h4), if_neg h4]; rfl

/-! ## C3: the accepted range of the data length -/

/-- C3, as stated, fails at 16,777,216: a header with valid tags declaring exactly
16 MiB is refused with "Invalid data length", although its data length is
neither 0 nor above 16,777,216. -/
theorem C3_counterexample_16MiB :
    (pcmHeader 2 16 16777216).riff_tag = RIFF ∧ (pcmHeader 2 16 16777216).wave_tag = WAVE
      ∧ validateHeader (pcmHeader 2 16 16777216) = .error .invalidDataLength
      ∧ ¬ ((pcmHeader 2 16 16777216).data_length = 0
          ∨ (pcmHeader 2 16 16777216).data_length > 16777216) := by
  decide

/-- C3 (amended): for every header with valid "RIFF"/"WAVE" tags, `validateHeader`
reports an invalid data length if and only if data_length = 0 or
data_length > 16,777,215 (0xFFFFFF), and accepts the header otherwise: the
accepted range is 0 < value ≤ 16,777,215. -/
theorem C3_data_length_range (h : WavHeader) (hriff : h.riff_tag = RIFF)
    (hwave : h.wave_tag = WAVE) :
    (validateHeader h = .error .invalidDataLength
        ↔ (h.data_length = 0 ∨ h.data_length > 16777215))
      ∧ (validateHeader h = .ok () ↔ (0 < h.data_length ∧ h.data_length ≤ 16777215)) := by
  rw [validateHeader_eq h hriff hwave]
  by_cases hd : h.data_length = 0 ∨ h.data_length > 16777215
  · rw [if_pos hd]
    refine ⟨⟨fun _ => hd, fun _ => rfl⟩, ⟨fun hc => (by cases hc), fun hc => (by omega)⟩⟩
  · rw [if_neg hd]
    refine ⟨⟨fun hc => (by cases hc), fun hc => absurd hc hd⟩, ⟨fun _ => (by omega), fun _ => rfl⟩⟩

/-- Witness of `C3_data_length_range`: the largest accepted length, 16,777,215. -/
theorem C3_data_length_range_witness :
    (pcmHeader 2 16 16777215).riff_tag = RIFF ∧ (pcmHeader 2 16 16777215).wave_tag = WAVE
      ∧ validateHeader (pcmHeader 2 16 16777215) = .ok () :=
  ⟨rfl, rfl, (C3_data_length_range (pcmHeader 2 16 16777215) rfl rfl).2.2 (by decide)⟩

/-! ## The write loop: one iteration and the shape of its trace -/

theorem playLoop_done (dev : Device) (fs T fuel i : Nat) (hist : List Event) (hi : ¬ i < T) :
    playLoop dev fs T fuel i hist = (.returned, [dev.ask hist .snd_pcm_drain]) := by
  cases fuel <;> simp [playLoop, hi]

theorem playLoop_zero (dev : Device) (fs T i : Nat) (hist : List Event) (hi : i < T) :
    playLoop dev fs T 0 i hist = (.outOfFuel, []) := by
  simp [playLoop, hi]

/-- One iteration of the loop of `AudioPlayer::play`, case by case. -/
theorem playLoop_succ (dev : Device) (fs T fuel i : Nat) (hist : List Event) (hi : i < T) :
    playLoop dev fs T (fuel + 1) i hist =
      (let n := min (T - i) 1024
       let w := dev.ask hist (.snd_pcm_writei (i * fs) n)
       let r := dev.ask (hist ++ [w]) (.snd_pcm_recover (narrowToInt w.2))
       if w.2 < 0 then
         if r.2 < 0 then (.threw (.writeError r.2), [w, r])
         else if r.2.toNat > n then (.threw .unexpectedFrames, [w, r])
         else ((playLoop dev fs T fuel (i + r.2.toNat) (hist ++ [w, r])).1,
               w :: r :: (playLoop dev fs T fuel (i + r.2.toNat) (hist ++ [w, r])).2)
       else if w.2.toNat > n then (.threw .unexpectedFrames, [w])
       else ((playLoop dev fs T fuel (i + w.2.toNat) (hist ++ [w])).1,
             w :: (playLoop dev fs T fuel (i + w.2.toNat) (hist ++ [w])).2)) := by
  rw [playLoop]
  simp only [hi, if_true, writeChunk]
  by_cases hw : (dev.ask hist (.snd_pcm_writei (i * fs) (min (T - i) 1024))).2 < 0
  · simp only [hw, if_true]
    split_ifs <;> rfl
  · simp only [hw, if_false]
    split_ifs <;> rfl

theorem playLoop_head (dev : Device) (fs T fuel i : Nat) (hist : List Event) (hi : i < T) :
    (playLoop dev fs T (fuel + 1) i hist).2[0]?
      = some (dev.ask hist (.snd_pcm_writei (i * fs) (min (T - i) 1024))) := by
  have hstep := playLoop_succ dev fs T fuel i hist hi
  simp only [] at hstep
  rw [hstep]; split_ifs <;> simp

theorem EventClass.shift (dev : Device) (fs T : Nat) (rest : PlayResult × List Event)
    (pre : List Event) (k : Nat) (e : Event) (h : EventClass dev fs T rest k e) :
    EventClass dev fs T (rest.1, pre ++ rest.2) (pre.length + k) e := by
  rcases h with ⟨fuel, i, hist, hi, hd, hr⟩ | ⟨off, n, res, rr, he, hk, hprev, hres⟩ | ⟨hd, hl, hr⟩
  · refine Or.inl ⟨fuel, i, hist, hi, ?_, hr⟩
    simp only [List.drop_append]
    exact hd
  · refine Or.inr (Or.inl ⟨off, n, res, rr, he, by omega, ?_, hres⟩)
    have hidx : pre.length + k - 1 = pre.length + (k - 1) := by omega
    simp only [hidx, List.getElem?_append_right (Nat.le_add_right _ _), Nat.add_sub_cancel_left]
    exact hprev
  · refine Or.inr (Or.inr ⟨hd, ?_, hr⟩)
    simp only [List.length_append, hl]
    omega

/-- Every event of the trace of the write loop is the first write of an
iteration, the recover call that follows a failed write, or the final drain. -/
theorem playLoop_event (dev : Device) (fs T : Nat) :
    ∀ (fuel i : Nat) (hist : List Event) (k : Nat) (e : Event),
      (playLoop dev fs T fuel i hist).2[k]? = some e →
      EventClass dev fs T (playLoop dev fs T fuel i hist) k e := by
  intro fuel
  induction fuel with
  | zero =>
    intro i hist k e hk
    by_cases hi : i < T
    · rw [playLoop_zero dev fs T i hist hi] at hk
      simp at hk
    · rw [playLoop_done dev fs T 0 i hist hi] at hk ⊢
      cases k with
      | zero =>
        simp only [List.getElem?_cons_zero, Option.some.injEq] at hk
        exact Or.inr (Or.inr ⟨by rw [← hk]; rfl, rfl, rfl⟩)
      | succ k => simp at hk
  | succ fuel ih =>
    intro i hist k e hk
    by_cases hi : i < T
    · cases k with
      | zero => exact Or.inl ⟨fuel, i, hist, hi, rfl, rfl⟩
      | succ k =>
        have hstep := playLoop_succ dev fs T fuel i hist hi
        simp only [] at hstep
        generalize hw : dev.ask hist (.snd_pcm_writei (i * fs) (min (T - i) 1024)) = w at hstep
        generalize hr : dev.ask (hist ++ [w]) (.snd_pcm_recover (narrowToInt w.2)) = r at hstep
        have hw1 : w = (.snd_pcm_writei (i * fs) (min (T - i) 1024), w.2) := by
          rw [← hw]; rfl
        have hr1 : r = (.snd_pcm_recover (narrowToInt w.2), r.2) := by
          rw [← hr]; rfl
        rw [hstep] at hk ⊢
        by_cases hwneg : w.2 < 0
        · have hclass1 : ∀ (run : PlayResult × List Event), run.2[0]? = some w →
              (k = 0 → EventClass dev fs T run (k + 1) r) := by
            intro run h0 hk0
            subst hk0
            exact Or.inr (Or.inl ⟨i * fs, min (T - i) 1024, w.2, r.2, hr1, le_refl _,
              by rw [← hw1]; exact h0, hwneg⟩)
          simp only [hwneg, if_true] at hk ⊢
          by_cases hrneg : r.2 < 0
          · simp only [hrneg, if_true] at hk ⊢
            cases k with
            | zero =>
              simp only [zero_add, List.getElem?_cons_succ, List.getElem?_cons_zero,
                Option.some.injEq] at hk
              rw [← hk]; exact hclass1 _ rfl rfl
            | succ k => simp at hk
          · simp only [hrneg, if_false] at hk ⊢
            by_cases hover : r.2.toNat > min (T - i) 1024
            · simp only [hover, if_true] at hk ⊢
              cases k with
              | zero =>
                simp only [zero_add, List.getElem?_cons_succ, List.getElem?_cons_zero,
                  Option.some.injEq] at hk
                rw [← hk]; exact hclass1 _ rfl rfl
              | succ k => simp at hk
            · simp only [hover, if_false] at hk ⊢
              cases k with
              | zero =>
                simp only [zero_add, List.getElem?_cons_succ, List.getElem?_cons_zero,
                  Option.some.injEq] at hk
                rw [← hk]; exact hclass1 _ rfl rfl
              | succ k =>
                simp only [List.getElem?_cons_succ] at hk
                have hidx : k + 1 + 1 = [w, r].length + k := by
                  simp only [List.length_cons, List.length_nil]; omega
                rw [hidx]
                exact EventClass.shift dev fs T _ [w, r] k e (ih _ _ k e hk)
        · simp only [hwneg, if_false] at hk ⊢
          by_cases hover : w.2.toNat > min (T - i) 1024
          · simp only [hover, if_true] at hk ⊢
            simp at hk
          · simp only [hover, if_false] at hk ⊢
            simp only [List.getElem?_cons_succ] at hk
            have hidx : k + 1 = [w].length + k := by
              simp only [List.length_cons, List.length_nil]; omega
            rw [hidx]
            exact EventClass.shift dev fs T _ [w] k e (ih _ _ k e hk)
    · rw [playLoop_done dev fs T _ i hist hi] at hk ⊢
      cases k with
      | zero =>
        simp only [List.getElem?_cons_zero, Option.some.injEq] at hk
        exact Or.inr (Or.inr ⟨by rw [← hk]; rfl, rfl, rfl⟩)
      | succ k => simp at hk

/-- A write event of the trace begins an iteration: its arguments are those of the
cursor of that iteration, and from its position on the trace is the trace of
the loop entered there. -/
theorem playLoop_write_event (dev : Device) (fs T fuel i : Nat) (hist : List Event)
    (k off n : Nat) (res : Int)
    (hk : (playLoop dev fs T fuel i hist).2[k]? = some (.snd_pcm_writei off n, res)) :
    ∃ fuel' i' hist', i' < T ∧ off = i' * fs ∧ n = min (T - i') 1024
      ∧ res = dev hist' (.snd_pcm_writei off n)
      ∧ (∀ j, (playLoop dev fs T fuel i hist).2[k + j]?
          = (playLoop dev fs T (fuel' + 1) i' hist').2[j]?)
      ∧ (playLoop dev fs T fuel i hist).2.length
          = k + (playLoop dev fs T (fuel' + 1) i' hist').2.length
      ∧ (playLoop dev fs T fuel i hist).1 = (playLoop dev fs T (fuel' + 1) i' hist').1 := by
  rcases playLoop_event dev fs T fuel i hist k _ hk with
    ⟨fuel', i', hist', hi', hd, hr⟩ | ⟨_, _, _, _, he, _⟩ | ⟨hd, _⟩
  · have hj : ∀ j, (playLoop dev fs T fuel i hist).2[k + j]?
        = (playLoop dev fs T (fuel' + 1) i' hist').2[j]? := by
      intro j; rw [← hd, List.getElem?_drop]
    have hlen : (playLoop dev fs T fuel i hist).2.length
        = k + (playLoop dev fs T (fuel' + 1) i' hist').2.length := by
      have hlt : k < (playLoop dev fs T fuel i hist).2.length := by
        by_contra hcon
        rw [List.getElem?_eq_none (by omega)] at hk
        cases hk
      rw [← hd, List.length_drop]; omega
    have h0 := hj 0
    rw [Nat.add_zero, hk] at h0
    rw [playLoop_head dev fs T fuel' i' hist' hi'] at h0
    simp only [Device.ask, Option.some.injEq, Prod.mk.injEq, Call.snd_pcm_writei.injEq] at h0
    obtain ⟨⟨hoff, hn⟩, hres⟩ := h0
    exact ⟨fuel', i', hist', hi', hoff, hn, by rw [hres, hoff, hn], hj, hlen, hr⟩
  · cases he
  · cases hd

theorem play_of_valid (dev : Device) (p : AudioPlayer) (fuel : Nat) (hist : List Event)
    (hv : validateFrameSize p.data (calculateFrameSize p.header) = .ok ()) :
    p.play dev fuel hist
      = playLoop dev (calculateFrameSize p.header)
          (p.data.length / calculateFrameSize p.header) fuel 0 hist := by
  simp only [AudioPlayer.play, hv]

theorem play_of_invalid (dev : Device) (p : AudioPlayer) (fuel : Nat) (hist : List Event)
    (e : PlayerError)
    (hv : validateFrameSize p.data (calculateFrameSize p.header) = .error e) :
    p.play dev fuel hist = (.threw e, []) := by
  simp only [AudioPlayer.play, hv]

theorem validateFrameSize_cases (data : List Byte) (fs : Nat) :
    (validateFrameSize data fs = .ok () ∧ 0 < fs ∧ data.length % fs = 0)
      ∨ (validateFrameSize data fs = .error .invalidFrameSize
          ∧ (fs = 0 ∨ data.length % fs ≠ 0)) := by
  unfold validateFrameSize
  by_cases h : fs = 0 ∨ data.length % fs ≠ 0
  · right; exact ⟨if_pos h, h⟩
  · left
    refine ⟨if_neg h, ?_, ?_⟩
    · by_contra hc; exact h (Or.inl (by omega))
    · by_contra hc; exact h (Or.inr hc)

/-- A write event of the trace of `play` begins an iteration of its loop. -/
theorem play_write_event (dev : Device) (p : AudioPlayer) (fuel : Nat) (hist : List Event)
    (k off n : Nat) (res : Int)
    (hk : (p.play dev fuel hist).2[k]? = some (.snd_pcm_writei off n, res)) :
    0 < calculateFrameSize p.header ∧ p.data.length % calculateFrameSize p.header = 0
      ∧ ∃ fuel' i' hist', i' < p.data.length / calculateFrameSize p.header
        ∧ off = i' * calculateFrameSize p.header
        ∧ n = min (p.data.length / calculateFrameSize p.header - i') 1024
        ∧ res = dev hist' (.snd_pcm_writei off n)
        ∧ (∀ j, (p.play dev fuel hist).2[k + j]?
            = (playLoop dev (calculateFrameSize p.header)
                (p.data.length / calculateFrameSize p.header) (fuel' + 1) i' hist').2[j]?)
        ∧ (p.play dev fuel hist).2.length
            = k + (playLoop dev (calculateFrameSize p.header)
                (p.data.length / calculateFrameSize p.header) (fuel' + 1) i' hist').2.length
        ∧ (p.play dev fuel hist).1
            = (playLoop dev (calculateFrameSize p.header)
                (p.data.length / calculateFrameSize p.header) (fuel' + 1) i' hist').1 := by
  rcases validateFrameSize_cases p.data (calculateFrameSize p.header) with
    ⟨hv, hpos, hmod⟩ | ⟨hv, _⟩
  · rw [play_of_valid dev p fuel hist hv] at hk ⊢
    exact ⟨hpos, hmod, playLoop_write_event dev _ _ fuel 0 hist k off n res hk⟩
  · rw [play_of_invalid dev p fuel hist _ hv] at hk
    simp at hk

theorem IterStart.head (dev : Device) (fs T : Nat) (run : PlayResult × List Event) (k : Nat)
    (h : IterStart dev fs T run k) :
    ∃ off n res, run.2[k]? = some (.snd_pcm_writei off n, res) := by
  obtain ⟨fuel, i, hist, hi, hd, _⟩ := h
  have hhead := playLoop_head dev fs T fuel i hist hi
  refine ⟨i * fs, min (T - i) 1024, dev hist (.snd_pcm_writei (i * fs) (min (T - i) 1024)), ?_⟩
  have hdrop : (run.2.drop k)[0]? = run.2[k + 0]? := List.getElem?_drop run.2 k 0
  rw [Nat.add_zero] at hdrop
  rw [← hdrop, hd, hhead]; rfl

/-- A recover event of the trace stands right after a write that returned a
negative value, and is given that value. -/
theorem recover_after_failed_write (dev : Device) (fs T : Nat) (run : PlayResult × List Event)
    (k : Nat) (err rr : Int) (hk : run.2[k]? = some (.snd_pcm_recover err, rr))
    (hc : EventClass dev fs T run k (.snd_pcm_recover err, rr)) :
    1 ≤ k ∧ ∃ off n res, run.2[k - 1]? = some (.snd_pcm_writei off n, res) ∧ res < 0
      ∧ err = narrowToInt res := by
  rcases hc with hs | ⟨off, n, res, rr', he, hk1, hprev, hres⟩ | ⟨hd, _⟩
  · obtain ⟨off, n, res, hw⟩ := IterStart.head dev fs T run k hs
    rw [hk] at hw; cases hw
  · simp only [Prod.mk.injEq, Call.snd_pcm_recover.injEq] at he
    exact ⟨hk1, off, n, res, hprev, hres, he.1⟩
  · cases hd

theorem play_event (dev : Device) (p : AudioPlayer) (fuel : Nat) (hist : List Event)
    (k : Nat) (e : Event) (hk : (p.play dev fuel hist).2[k]? = some e) :
    EventClass dev (calculateFrameSize p.header)
      (p.data.length / calculateFrameSize p.header) (p.play dev fuel hist) k e := by
  rcases validateFrameSize_cases p.data (calculateFrameSize p.header) with
    ⟨hv, _, _⟩ | ⟨hv, _⟩
  · rw [play_of_valid dev p fuel hist hv] at hk ⊢
    exact playLoop_event dev _ _ fuel 0 hist k e hk
  · rw [play_of_invalid dev p fuel hist _ hv] at hk
    simp at hk

/-! ## C7: one recovery attempt per failed write -/

/-- C7: in the trace of `AudioPlayer::play`, for every device behaviour, a write
call that returned a negative value is followed immediately by one
`snd_pcm_recover` call given that value, and the call after it is not another
recover; if the recovery returns a negative value, the trace ends there and
`play` throws the write error; if it returns 0, the next call (unless the run
is cut off by the fuel) is the same write again: same offset, same count.
Every recover call of the trace comes about this way. -/
theorem C7_one_shot_recovery (dev : Device) (p : AudioPlayer) (fuel : Nat) (hist : List Event)
    (k off n : Nat) (res : Int)
    (hk : (p.play dev fuel hist).2[k]? = some (.snd_pcm_writei off n, res))
    (hneg : res < 0) :
    (∃ rr, (p.play dev fuel hist).2[k + 1]? = some (.snd_pcm_recover (narrowToInt res), rr)
      ∧ (∀ err rr', (p.play dev fuel hist).2[k + 2]? ≠ some (.snd_pcm_recover err, rr'))
      ∧ (rr < 0 → (p.play dev fuel hist).2.length = k + 2
            ∧ (p.play dev fuel hist).1 = .threw (.writeError rr))
      ∧ (rr = 0 → ((p.play dev fuel hist).2.length = k + 2
              ∧ (p.play dev fuel hist).1 = .outOfFuel)
            ∨ ∃ res', (p.play dev fuel hist).2[k + 2]? = some (.snd_pcm_writei off n, res')))
    ∧ (∀ j err rr', (p.play dev fuel hist).2[j]? = some (.snd_pcm_recover err, rr') →
        1 ≤ j ∧ ∃ off' n' res', (p.play dev fuel hist).2[j - 1]?
            = some (.snd_pcm_writei off' n', res') ∧ res' < 0 ∧ err = narrowToInt res') := by
  have hconv : ∀ j err rr', (p.play dev fuel hist).2[j]? = some (.snd_pcm_recover err, rr') →
      1 ≤ j ∧ ∃ off' n' res', (p.play dev fuel hist).2[j - 1]?
          = some (.snd_pcm_writei off' n', res') ∧ res' < 0 ∧ err = narrowToInt res' :=
    fun j err rr' hj =>
      recover_after_failed_write dev _ _ _ j err rr' hj (play_event dev p fuel hist j _ hj)
  refine ⟨?_, hconv⟩
  obtain ⟨_, _, fuel', i', hist', hi', hoff, hn, hres, hj, hlen, hr⟩ :=
    play_write_event dev p fuel hist k off n res hk
  have hstep := playLoop_succ dev (calculateFrameSize p.header)
    (p.data.length / calculateFrameSize p.header) fuel' i' hist' hi'
  simp only [] at hstep
  rw [← hoff, ← hn] at hstep
  have hw2 : (dev.ask hist' (.snd_pcm_writei off n)).2 = res := hres.symm
  generalize hwdef : dev.ask hist' (.snd_pcm_writei off n) = w at hstep hw2
  generalize hrdef : dev.ask (hist' ++ [w]) (.snd_pcm_recover (narrowToInt w.2)) = r at hstep
  have hr1 : r = (.snd_pcm_recover (narrowToInt res), r.2) := by
    rw [← hrdef, hw2]; rfl
  have hwneg : w.2 < 0 := by rw [hw2]; exact hneg
  simp only [hwneg, if_true] at hstep
  have hnext : (p.play dev fuel hist).2[k + 1]? = some r := by
    rw [hj 1, hstep]; split_ifs <;> simp
  have hnot : ∀ err rr', (p.play dev fuel hist).2[k + 2]? ≠ some (.snd_pcm_recover err, rr') := by
    intro err rr' hc
    obtain ⟨_, off', n', res', hprev, _, _⟩ := hconv (k + 2) err rr' hc
    rw [show k + 2 - 1 = k + 1 by omega, hnext, hr1] at hprev
    cases hprev
  refine ⟨r.2, by rw [hnext]; exact congrArg some hr1, hnot, ?_, ?_⟩
  · intro hrneg
    simp only [hrneg, if_true] at hstep
    rw [hlen, hr, hstep]
    exact ⟨rfl, rfl⟩
  · intro hr0
    have h1 : ¬ r.2 < 0 := by omega
    have h2 : ¬ r.2.toNat > n := by rw [hr0]; simp
    simp only [h1, h2, if_false] at hstep
    have hcur : i' + r.2.toNat = i' := by rw [hr0]; simp
    rw [hcur] at hstep
    cases fuel' with
    | zero =>
      left
      rw [hlen, hr, hstep, playLoop_zero dev _ _ i' _ hi']
      exact ⟨rfl, rfl⟩
    | succ f =>
      right
      have hstep2 := playLoop_succ dev (calculateFrameSize p.header)
        (p.data.length / calculateFrameSize p.header) f i' (hist' ++ [w, r]) hi'
      simp only [] at hstep2
      rw [← hoff, ← hn] at hstep2
      refine ⟨dev (hist' ++ [w, r]) (.snd_pcm_writei off n), ?_⟩
      rw [hj 2, hstep]
      simp only [List.getElem?_cons_succ]
      rw [hstep2]; split_ifs <;> simp [Device.ask]

/-- Witness of `C7_one_shot_recovery`: the two-frame scenario on a device whose
first write reports an underrun; the trace is write, recover, the same write
again, drain. -/
theorem C7_one_shot_recovery_witness :
    (demoPlayer.play underrunFirst 2 [])
        = (.returned, [(.snd_pcm_writei 0 2, -32), (.snd_pcm_recover (-32), 0),
            (.snd_pcm_writei 0 2, 2), (.snd_pcm_drain, 0)])
      ∧ ∃ rr, (demoPlayer.play underrunFirst 2 []).2[0 + 1]?
          = some (.snd_pcm_recover (narrowToInt (-32)), rr) :=
  ⟨by decide, by
    obtain ⟨⟨rr, h1, _⟩, _⟩ := C7_one_shot_recovery underrunFirst demoPlayer 2 [] 0 0 2 (-32)
      (by decide) (by decide)
    exact ⟨rr, h1⟩⟩

/-! ## C8: over-acceptance fails fast -/

/-- C8: for every device behaviour, every write call of `AudioPlayer::play` is
made at a cursor `i` below `totalFrames` for `min(totalFrames - i, 1024)` frames,
so that the chunk `[i, i + framesToWrite)` lies within the frames of the sample
buffer; and a write that reports more frames than it was asked for is the last
device call of `play`, which throws "Unexpected number of frames written"
without another write or the drain. -/
theorem C8_over_acceptance_fails_fast (dev : Device) (p : AudioPlayer) (fuel : Nat)
    (hist : List Event) (k off n : Nat) (res : Int)
    (hk : (p.play dev fuel hist).2[k]? = some (.snd_pcm_writei off n, res)) :
    (∃ i, off = i * calculateFrameSize p.header
        ∧ n = min (p.data.length / calculateFrameSize p.header - i) 1024
        ∧ 0 < n
        ∧ i + n ≤ p.data.length / calculateFrameSize p.header
        ∧ off + n * calculateFrameSize p.header ≤ p.data.length)
      ∧ ((n : Int) < res →
          (p.play dev fuel hist).2.length = k + 1
            ∧ (p.play dev fuel hist).1 = .threw .unexpectedFrames) := by
  obtain ⟨_, _, fuel', i', hist', hi', hoff, hn, hres, hj, hlen, hr⟩ :=
    play_write_event dev p fuel hist k off n res hk
  constructor
  · refine ⟨i', hoff, hn, by omega, by omega, ?_⟩
    have hle : i' + n ≤ p.data.length / calculateFrameSize p.header := by omega
    calc off + n * calculateFrameSize p.header
        = (i' + n) * calculateFrameSize p.header := by rw [hoff, Nat.add_mul]
      _ ≤ (p.data.length / calculateFrameSize p.header) * calculateFrameSize p.header :=
          Nat.mul_le_mul_right _ hle
      _ ≤ p.data.length := Nat.div_mul_le_self _ _
  · intro hover
    have hstep := playLoop_succ dev (calculateFrameSize p.header)
      (p.data.length / calculateFrameSize p.header) fuel' i' hist' hi'
    simp only [] at hstep
    rw [← hoff, ← hn] at hstep
    have hw2 : (dev.ask hist' (.snd_pcm_writei off n)).2 = res := hres.symm
    have h1 : ¬ (dev.ask hist' (.snd_pcm_writei off n)).2 < 0 := by rw [hw2]; omega
    have h2 : (dev.ask hist' (.snd_pcm_writei off n)).2.toNat > n := by rw [hw2]; omega
    simp only [h1, h2, if_false, if_true] at hstep
    rw [hlen, hr, hstep]
    exact ⟨rfl, rfl⟩

/-- Witness of `C8_over_acceptance_fails_fast`: the two-frame scenario on a device
that reports 3 frames for the 2 it was offered; the write is the only call. -/
theorem C8_over_acceptance_fails_fast_witness :
    (demoPlayer.play overAccept 5 []).2[0]? = some (.snd_pcm_writei 0 2, 3)
      ∧ (demoPlayer.play overAccept 5 []).2.length = 0 + 1
      ∧ (demoPlayer.play overAccept 5 []).1 = .threw .unexpectedFrames :=
  ⟨by decide,
    (C8_over_acceptance_fails_fast overAccept demoPlayer 5 [] 0 0 2 3 (by decide)).2
      (by decide)⟩

/-! ## C6: chunking -/

theorem acceptedFrames_write (off n : Nat) (res : Int) (rest : List Event) :
    acceptedFrames ((.snd_pcm_writei off n, res) :: rest) = res.toNat + acceptedFrames rest := rfl

theorem writeCalls_write (off n : Nat) (res : Int) (rest : List Event) :
    writeCalls ((.snd_pcm_writei off n, res) :: rest) = (off, n) :: writeCalls rest := rfl

theorem acceptedFrames_drain (res : Int) : acceptedFrames [(.snd_pcm_drain, res)] = 0 := rfl

theorem writeCalls_drain (res : Int) : writeCalls [(.snd_pcm_drain, res)] = [] := rfl

/-- When no write returns an error signal and the loop returns, the accepted
counts add up to the frames that were left, and it took at least one write
per 1024 of them. -/
theorem playLoop_returned_sum (dev : Device) (fs T : Nat)
    (hnoerr : ∀ hist off n, 0 ≤ dev hist (.snd_pcm_writei off n)) :
    ∀ (fuel i : Nat) (hist : List Event), i ≤ T →
      (playLoop dev fs T fuel i hist).1 = .returned →
      i + acceptedFrames (playLoop dev fs T fuel i hist).2 = T
        ∧ (T - i + 1023) / 1024 ≤ (writeCalls (playLoop dev fs T fuel i hist).2).length := by
  intro fuel
  induction fuel with
  | zero =>
    intro i hist hiT hret
    by_cases hi : i < T
    · rw [playLoop_zero dev fs T i hist hi] at hret; cases hret
    · rw [playLoop_done dev fs T 0 i hist hi]
      simp only [Device.ask, acceptedFrames_drain, writeCalls_drain, List.length_nil]
      omega
  | succ fuel ih =>
    intro i hist hiT hret
    by_cases hi : i < T
    · have hstep := playLoop_succ dev fs T fuel i hist hi
      simp only [] at hstep
      have hw0 := hnoerr hist (i * fs) (min (T - i) 1024)
      have h1 : ¬ (dev.ask hist (.snd_pcm_writei (i * fs) (min (T - i) 1024))).2 < 0 := by
        simp only [Device.ask]; omega
      simp only [h1, if_false] at hstep
      by_cases hover : (dev.ask hist (.snd_pcm_writei (i * fs) (min (T - i) 1024))).2.toNat
          > min (T - i) 1024
      · simp only [hover, if_true] at hstep
        rw [hstep] at hret; cases hret
      · simp only [hover, if_false] at hstep
        rw [hstep] at hret ⊢
        simp only [Device.ask] at hover hret ⊢
        have hrec := ih _ _ (by omega) hret
        rw [acceptedFrames_write, writeCalls_write, List.length_cons]
        omega
    · rw [playLoop_done dev fs T _ i hist hi]
      simp only [Device.ask, acceptedFrames_drain, writeCalls_drain, List.length_nil]
      omega

/-- On a device that accepts every write in full the loop returns, given one
unit of fuel per chunk, after one write per chunk. -/
theorem playLoop_full_accept (dev : Device) (fs T : Nat)
    (hfull : ∀ hist off n, dev hist (.snd_pcm_writei off n) = (n : Int)) :
    ∀ (fuel i : Nat) (hist : List Event), i ≤ T → (T - i + 1023) / 1024 ≤ fuel →
      (playLoop dev fs T fuel i hist).1 = .returned
        ∧ (playLoop dev fs T fuel i hist).2.map Prod.fst
          = (List.range ((T - i + 1023) / 1024)).map
              (fun k => Call.snd_pcm_writei ((i + 1024 * k) * fs) (min (T - (i + 1024 * k)) 1024))
            ++ [.snd_pcm_drain]
        ∧ (writeCalls (playLoop dev fs T fuel i hist).2).length = (T - i + 1023) / 1024 := by
  intro fuel
  induction fuel with
  | zero =>
    intro i hist hiT hfuel
    have hi : ¬ i < T := by omega
    have hm : (T - i + 1023) / 1024 = 0 := by omega
    rw [playLoop_done dev fs T 0 i hist hi, hm]
    exact ⟨rfl, rfl, rfl⟩
  | succ fuel ih =>
    intro i hist hiT hfuel
    by_cases hi : i < T
    · have hstep := playLoop_succ dev fs T fuel i hist hi
      simp only [] at hstep
      have hw := hfull hist (i * fs) (min (T - i) 1024)
      have h1 : ¬ (dev.ask hist (.snd_pcm_writei (i * fs) (min (T - i) 1024))).2 < 0 := by
        simp only [Device.ask, hw]; omega
      have h2 : ¬ (dev.ask hist (.snd_pcm_writei (i * fs) (min (T - i) 1024))).2.toNat
          > min (T - i) 1024 := by
        simp only [Device.ask, hw]; omega
      have h3 : (dev.ask hist (.snd_pcm_writei (i * fs) (min (T - i) 1024))).2.toNat
          = min (T - i) 1024 := by
        simp only [Device.ask, hw]; omega
      simp only [h1, if_false] at hstep
      rw [if_neg h2, h3] at hstep
      rw [hstep]
      by_cases hlast : T - i ≤ 1024
      · have hn : min (T - i) 1024 = T - i := by omega
        have hm : (T - i + 1023) / 1024 = 1 := by omega
        have hrec := ih (i + (T - i)) (hist ++ [dev.ask hist (.snd_pcm_writei (i * fs) (T - i))])
          (by omega) (by omega)
        have hm' : (T - (i + (T - i)) + 1023) / 1024 = 0 := by omega
        rw [hm'] at hrec
        rw [hn, hm]
        refine ⟨hrec.1, ?_, ?_⟩
        · show List.map Prod.fst (_ :: _) = _
          rw [List.map_cons, hrec.2.1]
          simp [Device.ask, List.range_succ_eq_map, hn]
        · show (writeCalls (_ :: _)).length = _
          simp only [Device.ask, writeCalls_write, List.length_cons]
          have := hrec.2.2
          simp only [Device.ask] at this
          rw [this]
      · have hn : min (T - i) 1024 = 1024 := by omega
        have hm : (T - i + 1023) / 1024 = (T - (i + 1024) + 1023) / 1024 + 1 := by omega
        have hrec := ih (i + 1024) (hist ++ [dev.ask hist (.snd_pcm_writei (i * fs) 1024)])
          (by omega) (by omega)
        rw [hn, hm]
        refine ⟨hrec.1, ?_, ?_⟩
        swap
        · show (writeCalls (_ :: _)).length = _
          simp only [Device.ask, writeCalls_write, List.length_cons]
          have := hrec.2.2
          simp only [Device.ask] at this
          rw [this]
        show List.map Prod.fst (_ :: _) = _
        rw [List.map_cons, hrec.2.1, List.range_succ_eq_map, List.map_cons, List.map_map,
          List.cons_append]
        have hhead : (dev.ask hist (.snd_pcm_writei (i * fs) 1024)).1
            = Call.snd_pcm_writei ((i + 1024 * 0) * fs) (min (T - (i + 1024 * 0)) 1024) := by
          simp only [Device.ask, Nat.mul_zero, Nat.add_zero, hn]
        have htail : (fun k => Call.snd_pcm_writei ((i + 1024 + 1024 * k) * fs)
              (min (T - (i + 1024 + 1024 * k)) 1024))
            = (fun k => Call.snd_pcm_writei ((i + 1024 * k) * fs)
              (min (T - (i + 1024 * k)) 1024)) ∘ Nat.succ := by
          funext k
          simp only [Function.comp, Nat.succ_eq_add_one]
          rw [show i + 1024 * (k + 1) = i + 1024 + 1024 * k by omega]
        rw [hhead, htail]
    · have hm : (T - i + 1023) / 1024 = 0 := by omega
      rw [playLoop_done dev fs T _ i hist hi, hm]
      exact ⟨rfl, rfl, rfl⟩

/-- C6, as stated, fails when a device accepts part of a chunk: in the two-frame
scenario (T = 2) on a device that returns no error signal and takes one frame
per write, `play` returns after two write calls, not ceil(2 / 1024) = 1. -/
theorem C6_counterexample_partial_write :
    (∀ hist off n, 0 ≤ oneFramePerWrite hist (.snd_pcm_writei off n))
      ∧ demoPlayer.data.length / calculateFrameSize demoPlayer.header = 2
      ∧ (demoPlayer.play oneFramePerWrite 5 []).1 = .returned
      ∧ writeCalls (demoPlayer.play oneFramePerWrite 5 []).2 = [(0, 2), (4, 1)]
      ∧ (writeCalls (demoPlayer.play oneFramePerWrite 5 []).2).length ≠ (2 + 1023) / 1024 :=
  ⟨fun _ _ _ => (by decide : (0 : Int) ≤ 1), by decide, by decide, by decide, by decide⟩

/-- C6 (amended): with chunk bound 1024 and T = total frames, for every device
behaviour in which no write call returns an error signal, every write call of
`AudioPlayer::play` requests min(T - i, 1024) frames at its cursor i; whenever
`play` returns, the accepted-frame counts add up to T and at least
ceil(T / 1024) write calls were issued; and when every write accepts all the
frames it is offered, `play` returns after exactly ceil(T / 1024) write calls,
the k-th at cursor 1024 * k, followed by the drain. -/
theorem C6_chunking (dev : Device) (p : AudioPlayer) (fuel : Nat) (hist : List Event)
    (hv : validateFrameSize p.data (calculateFrameSize p.header) = .ok ())
    (hnoerr : ∀ hist off n, 0 ≤ dev hist (.snd_pcm_writei off n)) :
    (∀ (k off n : Nat) (res : Int),
        (p.play dev fuel hist).2[k]? = some (Call.snd_pcm_writei off n, res) →
        ∃ i, i < p.data.length / calculateFrameSize p.header
          ∧ off = i * calculateFrameSize p.header
          ∧ n = min (p.data.length / calculateFrameSize p.header - i) 1024)
      ∧ ((p.play dev fuel hist).1 = .returned →
          acceptedFrames (p.play dev fuel hist).2
              = p.data.length / calculateFrameSize p.header
            ∧ (p.data.length / calculateFrameSize p.header + 1023) / 1024
              ≤ (writeCalls (p.play dev fuel hist).2).length)
      ∧ ((∀ hist off n, dev hist (.snd_pcm_writei off n) = (n : Int)) →
          (p.data.length / calculateFrameSize p.header + 1023) / 1024 ≤ fuel →
          (p.play dev fuel hist).1 = .returned
            ∧ (p.play dev fuel hist).2.map Prod.fst
                = chunkedCalls (calculateFrameSize p.header)
                    (p.data.length / calculateFrameSize p.header)
            ∧ (writeCalls (p.play dev fuel hist).2).length
                = (p.data.length / calculateFrameSize p.header + 1023) / 1024
            ∧ acceptedFrames (p.play dev fuel hist).2
                = p.data.length / calculateFrameSize p.header) := by
  have hsum := playLoop_returned_sum dev (calculateFrameSize p.header)
    (p.data.length / calculateFrameSize p.header) hnoerr fuel 0 hist (Nat.zero_le _)
  rw [Nat.zero_add, Nat.sub_zero] at hsum
  refine ⟨?_, ?_, ?_⟩
  · intro k off n res hk
    obtain ⟨_, _, fuel', i', hist', hi', hoff, hn, _⟩ :=
      play_write_event dev p fuel hist k off n res hk
    exact ⟨i', hi', hoff, hn⟩
  · rw [play_of_valid dev p fuel hist hv]
    exact hsum
  · intro hfull hfuel
    have hrun := playLoop_full_accept dev (calculateFrameSize p.header)
      (p.data.length / calculateFrameSize p.header) hfull fuel 0 hist (Nat.zero_le _)
      (by rw [Nat.sub_zero]; exact hfuel)
    rw [Nat.sub_zero] at hrun
    rw [play_of_valid dev p fuel hist hv]
    refine ⟨hrun.1, ?_, hrun.2.2, (hsum hrun.1).1⟩
    rw [hrun.2.1]
    simp only [chunkedCalls, Nat.zero_add]

/-- Witness of `C6_chunking`: two channels of 16 bits and 8 payload bytes give
frame size 4 and T = 2; on a device accepting every write in full, `play` makes
a single write call, requesting 2 frames at offset 0, then drains. -/
theorem C6_chunking_witness :
    calculateFrameSize demoPlayer.header = 4
      ∧ demoPlayer.data.length / calculateFrameSize demoPlayer.header = 2
      ∧ chunkedCalls 4 2 = [.snd_pcm_writei 0 2, .snd_pcm_drain]
      ∧ (demoPlayer.play acceptAll 1 []).1 = .returned
      ∧ (demoPlayer.play acceptAll 1 []).2.map Prod.fst
          = chunkedCalls (calculateFrameSize demoPlayer.header)
              (demoPlayer.data.length / calculateFrameSize demoPlayer.header)
      ∧ (writeCalls (demoPlayer.play acceptAll 1 []).2).length
          = (demoPlayer.data.length / calculateFrameSize demoPlayer.header + 1023) / 1024
      ∧ acceptedFrames (demoPlayer.play acceptAll 1 []).2
          = demoPlayer.data.length / calculateFrameSize demoPlayer.header :=
  ⟨by decide, by decide, by decide,
    (C6_chunking acceptAll demoPlayer 1 [] (by decide) (fun _ _ _ => Int.ofNat_zero_le _)).2.2
      (fun _ _ _ => rfl) (by decide)⟩

/-! ## Device configuration -/

theorem selectFormat_unsupported (h : WavHeader) (h16 : h.bits_per_sample ≠ 16)
    (h24 : h.bits_per_sample ≠ 24) :
    selectFormat h = .error (.unsupportedBitDepth h.bits_per_sample) := by
  unfold selectFormat
  rw [if_neg h16, if_neg h24]

/-- With an unsupported bit depth `configureDevice` stops at `selectFormat`, after
the access type, unless one of the two calls before it failed. -/
theorem configureDevice_unsupported (dev : Device) (h : WavHeader) (hist : List Event)
    (h16 : h.bits_per_sample ≠ 16) (h24 : h.bits_per_sample ≠ 24) :
    configureDevice dev h hist =
      if (dev.ask hist .snd_pcm_hw_params_any).2 < 0 then
        (.error .paramsInitFailed, [dev.ask hist .snd_pcm_hw_params_any])
      else if (dev.ask (hist ++ [dev.ask hist .snd_pcm_hw_params_any])
          .snd_pcm_hw_params_set_access).2 < 0 then
        (.error .setAccessFailed, [dev.ask hist .snd_pcm_hw_params_any,
          dev.ask (hist ++ [dev.ask hist .snd_pcm_hw_params_any]) .snd_pcm_hw_params_set_access])
      else
        (.error (.unsupportedBitDepth h.bits_per_sample),
          [dev.ask hist .snd_pcm_hw_params_any,
            dev.ask (hist ++ [dev.ask hist .snd_pcm_hw_params_any])
              .snd_pcm_hw_params_set_access]) := by
  unfold configureDevice
  simp only [selectFormat_unsupported h h16 h24]

/-- C5 fails on the code: on the 8-bit file with a device on which every call
succeeds, `snd_pcm_open` succeeds, `selectFormat` throws inside the constructor
of `AudioPlayer`, the destructor is not run and `main` ends with status 1
without a single `snd_pcm_close`.  After a completed constructor there is one
close, and after a failed open there is none. -/
theorem C5_no_close_when_constructor_throws :
    mainOOP (some eightBitFile) acceptAll 3
        = (.status 1, [(.snd_pcm_open .defaultDevice, 0), (.snd_pcm_hw_params_any, 0),
            (.snd_pcm_hw_params_set_access, 0)])
      ∧ closeCalls (mainOOP (some eightBitFile) acceptAll 3).2 = 0
      ∧ closeCalls (mainOOP (some (encodeHeader (pcmHeader 2 16 8) ++ demoPayload))
          acceptAll 3).2 = 1
      ∧ closeCalls (mainOOP (some (encodeHeader (pcmHeader 2 16 8) ++ demoPayload))
          overAccept 3).2 = 1
      ∧ mainOOP (some (encodeHeader (pcmHeader 2 16 8) ++ demoPayload)) openFails 3
          = (.status 1, [(.snd_pcm_open .defaultDevice, -2)]) := by
  decide

/-! ## C9: selection of the sample encoding -/

/-- C9: for every header, 16 bits per sample selects `SND_PCM_FORMAT_S16_LE` and 24
selects `SND_PCM_FORMAT_S24_3LE`; for a decoded file with any other bit depth
`selectFormat` throws "Unsupported bit depth", `configureDevice` stops there
right after `snd_pcm_hw_params_set_access` (unless that call or the one before
it was rejected), and `main` ends with status 1 having called nothing but
open, hw_params_any and set_access: no format, channel or rate negotiation and
no write or drain. -/
theorem C9_format_selection (file : Option (List Byte)) (w : WavFile) (dev : Device)
    (fuel : Nat) (hdec : readHeader file = .ok w)
    (h16 : w.getHeader.bits_per_sample ≠ 16) (h24 : w.getHeader.bits_per_sample ≠ 24) :
    selectFormat { w.getHeader with bits_per_sample := 16 } = .ok .SND_PCM_FORMAT_S16_LE
      ∧ selectFormat { w.getHeader with bits_per_sample := 24 } = .ok .SND_PCM_FORMAT_S24_3LE
      ∧ selectFormat w.getHeader = .error (.unsupportedBitDepth w.getHeader.bits_per_sample)
      ∧ (∀ hist,
          0 ≤ (dev.ask hist .snd_pcm_hw_params_any).2 →
          0 ≤ (dev.ask (hist ++ [dev.ask hist .snd_pcm_hw_params_any])
            .snd_pcm_hw_params_set_access).2 →
          configureDevice dev w.getHeader hist
            = (.error (.unsupportedBitDepth w.getHeader.bits_per_sample),
                [dev.ask hist .snd_pcm_hw_params_any,
                  dev.ask (hist ++ [dev.ask hist .snd_pcm_hw_params_any])
                    .snd_pcm_hw_params_set_access]))
      ∧ (mainOOP file dev fuel).1 = .status 1
      ∧ (∀ e ∈ (mainOOP file dev fuel).2,
          e.1 = .snd_pcm_open .defaultDevice ∨ e.1 = .snd_pcm_hw_params_any
            ∨ e.1 = .snd_pcm_hw_params_set_access) := by
  simp only [WavFile.getHeader] at h16 h24 ⊢
  have hcfg := configureDevice_unsupported dev w.header
  refine ⟨rfl, rfl, selectFormat_unsupported w.header h16 h24, ?_, ?_⟩
  · intro hist ha hb
    rw [hcfg hist h16 h24, if_neg (by omega), if_neg (by omega)]
  · unfold mainOOP
    rw [hdec]
    simp only []
    unfold AudioPlayer.new
    simp only [WavFile.getHeader]
    rw [hcfg _ h16 h24]
    split_ifs <;> simp [Device.ask]

/-- Witness of `C9_format_selection`: the 8-bit file of the specification's
scenario. -/
theorem C9_format_selection_witness :
    readHeader (some eightBitFile) = .ok ⟨pcmHeader 2 8 8, demoPayload⟩
      ∧ selectFormat (pcmHeader 2 8 8) = .error (.unsupportedBitDepth 8)
      ∧ (mainOOP (some eightBitFile) acceptAll 3).1 = .status 1 :=
  ⟨by decide,
    (C9_format_selection (some eightBitFile) ⟨pcmHeader 2 8 8, demoPayload⟩ acceptAll 3
      (by decide) (by decide) (by decide)).2.2.1,
    (C9_format_selection (some eightBitFile) ⟨pcmHeader 2 8 8, demoPayload⟩ acceptAll 3
      (by decide) (by decide) (by decide)).2.2.2.2.1⟩

/-! ## The three programs on their common path -/

end AlsaPlayer
